import Mathlib

/-!
Verification of the Kinopoisk Obsidian plugin's data-formatting core.

The definitions below are a shallow embedding of the TypeScript sources
`src/APIProvider/DataFormatter.ts` and `src/APIProvider/provider.ts`.
JavaScript strings become `String`, JavaScript numbers become `Int`/`Rat`
(with a two-point `JSNum` type where `NaN` can arise), optional values
become `Option`, and the host string primitives (`trim`, regex `\s`,
`Number.prototype.toFixed`, `Math.ceil`, ISO date parsing of
`new Date` / `toISOString` under a UTC environment) are modelled by the
explicit functions below.
-/

namespace Kinopoisk

/-- Whitespace class used by the JavaScript `trim` and the regex `\s`:
the ASCII whitespace characters plus the no-break space (the remaining
exotic Unicode space code points of the full JS class are not used by
any input considered here). -/
def jsIsWhitespace (c : Char) : Bool :=
  c = ' ' || c = '\t' || c = '\n' || c = '\r' || c = '\x0b' || c = '\x0c' || c = ' '

/-- Drops leading and trailing `jsIsWhitespace` characters of a character list. -/
def jsTrimList (l : List Char) : List Char :=
  ((l.dropWhile jsIsWhitespace).reverse.dropWhile jsIsWhitespace).reverse

/-- Embeds `String.prototype.trim`. -/
def jsTrim (s : String) : String :=
  String.mk (jsTrimList s.data)

/-- Embeds `DataFormatter.cleanTextForMetadata` (DataFormatter.ts lines 595-598):
`if (!text) return ""; return text.replace(/:/g, "").trim();`.
Removing every `:` via the global regex is removal of the single character. -/
def cleanTextForMetadata (text : String) : String :=
  if text = "" then ""
  else jsTrim (String.mk (text.data.filter (fun c => c ≠ ':')))

/-- FormatType enumeration of DataFormatter.ts lines 42-49. -/
inductive FormatType where
  | SHORT_VALUE
  | LONG_TEXT
  | URL
  | LINK
  | LINK_WITH_PATH
  | LINK_ID_WITH_PATH
deriving DecidableEq, Repr

/-- Structured `{ name: string; id?: number }` input of `formatArray`. -/
structure Entity where
  name : String
  id : Option Int
deriving DecidableEq, Repr

/-- One element of the heterogeneous `string[] | Array<{name,id?}>` input
of `formatArray`. -/
inductive FItem where
  | str (s : String)
  | ent (e : Entity)
deriving DecidableEq, Repr

/-- Embeds the projection `typeof item === 'object' && item.name ? item.name : item`
of DataFormatter.ts lines 391-393: an object with a truthy `name` becomes that
name; everything else is left unchanged. -/
def projectToString : FItem → FItem
  | FItem.str s => FItem.str s
  | FItem.ent e => if e.name = "" then FItem.ent e else FItem.str e.name

/-- Embeds the filter `typeof item === 'string' && item.trim() !== ""` of
DataFormatter.ts line 396, keeping the surviving strings. -/
def keepNonBlankStr : FItem → Option String
  | FItem.str s => if jsTrim s = "" then none else some s
  | FItem.ent _ => none

/-- Embeds the filter `item.name && item.name.trim() !== ""` of
DataFormatter.ts line 377 in the LINK_ID_WITH_PATH branch (a plain string
has no `name` property, so it is dropped). -/
def entKeep : FItem → Option Entity
  | FItem.ent e => if e.name ≠ "" ∧ jsTrim e.name ≠ "" then some e else none
  | FItem.str _ => none

/-- JavaScript truthiness of the optional `folderPath` string combined with
the `folderPath.trim() !== ""` check of DataFormatter.ts line 381 / 428. -/
def pathTruthyNonBlank : Option String → Bool
  | some p => p ≠ "" && jsTrim p ≠ ""
  | none => false

/-- JavaScript truthiness of the optional numeric `id` (`undefined` and `0`
are falsy). -/
def idTruthy : Option Int → Bool
  | some i => i ≠ 0
  | none => false

/-- Embeds the LINK_ID_WITH_PATH element rendering of DataFormatter.ts
lines 379-387. -/
def renderLinkIdWithPath (folderPath : Option String) (item : Entity) : String :=
  let cleanName := cleanTextForMetadata item.name
  if pathTruthyNonBlank folderPath && idTruthy item.id then
    "\"[[" ++ folderPath.getD "" ++ "/" ++ toString (item.id.getD 0) ++ "|" ++ cleanName ++ "]]\""
  else if idTruthy item.id then
    "\"[[" ++ toString (item.id.getD 0) ++ "|" ++ cleanName ++ "]]\""
  else
    "\"[[" ++ cleanName ++ "]]\""

/-- Replaces each `'\n'` by a space: the `.replace(/\n/g, " ")` step of
DataFormatter.ts line 408. -/
def newlinesToSpaces (l : List Char) : List Char :=
  l.map (fun c => if c = '\n' then ' ' else c)

/-- Collapses every maximal run of whitespace to a single space: the
`.replace(/\s+/g, " ")` step of DataFormatter.ts line 409. The boolean
records whether the previous character belonged to a whitespace run. -/
def collapseWsAux : Bool → List Char → List Char
  | _, [] => []
  | prevWs, c :: cs =>
    if jsIsWhitespace c then
      if prevWs then collapseWsAux true cs
      else ' ' :: collapseWsAux true cs
    else c :: collapseWsAux false cs

/-- Whitespace-run collapsing on strings. -/
def collapseWs (l : List Char) : List Char :=
  collapseWsAux false l

/-- The cleaned body of a LONG_TEXT element (DataFormatter.ts lines 407-410). -/
def longTextClean (s : String) : String :=
  jsTrim (String.mk (collapseWs (newlinesToSpaces s.data)))

/-- LONG_TEXT element rendering (DataFormatter.ts lines 406-411). -/
def renderLongText (s : String) : String :=
  "\"" ++ longTextClean s ++ "\""

/-- LINK element rendering (DataFormatter.ts lines 419-421). -/
def renderLink (item : String) : String :=
  "\"[[" ++ cleanTextForMetadata item ++ "]]\""

/-- LINK_WITH_PATH element rendering (DataFormatter.ts lines 426-431). -/
def renderLinkWithPath (folderPath : Option String) (item : String) : String :=
  let cleanName := cleanTextForMetadata item
  if pathTruthyNonBlank folderPath then
    "\"[[" ++ folderPath.getD "" ++ "/" ++ cleanName ++ "]]\""
  else
    "\"[[" ++ cleanName ++ "]]\""

/-- Embeds `DataFormatter.formatArray` (DataFormatter.ts lines 367-437).
The last branch of the inner match mirrors the `default: return filteredItems`
fallthrough of the switch (unreachable because LINK_ID_WITH_PATH is handled
first, exactly as in the source). -/
def formatArray (items : List FItem) (formatType : FormatType)
    (folderPath : Option String) (maxItems : Nat) : List String :=
  if formatType = FormatType.LINK_ID_WITH_PATH then
    ((items.filterMap entKeep).take maxItems).map (renderLinkIdWithPath folderPath)
  else
    let filteredItems := ((items.map projectToString).filterMap keepNonBlankStr).take maxItems
    match formatType with
    | FormatType.SHORT_VALUE => filteredItems.map cleanTextForMetadata
    | FormatType.LONG_TEXT => filteredItems.map renderLongText
    | FormatType.URL => filteredItems.map jsTrim
    | FormatType.LINK => filteredItems.map renderLink
    | FormatType.LINK_WITH_PATH => filteredItems.map (renderLinkWithPath folderPath)
    | FormatType.LINK_ID_WITH_PATH => filteredItems

/-- The default `maxItems` value MAX_ARRAY_ITEMS (DataFormatter.ts line 12). -/
def MAX_ARRAY_ITEMS : Nat := 50

/-- The facts cap MAX_FACTS_COUNT (DataFormatter.ts line 13). -/
def MAX_FACTS_COUNT : Nat := 5

/-- Season entry shape of KinopoiskSeasonInfo (kinopoisk_response.ts lines 105-108). -/
structure KinopoiskSeasonInfo where
  number : Int
  episodesCount : Int
deriving DecidableEq, Repr

/-- Return shape of `calculateSeasonsData` (DataFormatter.ts lines 444-447). -/
structure SeasonsData where
  count : Int
  averageEpisodesPerSeason : Int
deriving DecidableEq, Repr

/-- Embeds `Math.ceil` on rationals. -/
def jsCeil (q : Rat) : Int := ⌈q⌉

/-- Embeds `DataFormatter.calculateSeasonsData` (DataFormatter.ts lines 442-462). -/
def calculateSeasonsData (seasonsInfo : Option (List KinopoiskSeasonInfo)) : SeasonsData :=
  match seasonsInfo with
  | none => ⟨0, 0⟩
  | some l =>
    if l.length = 0 then ⟨0, 0⟩
    else
      let totalEpisodes : Int := l.foldl (fun total season => total + season.episodesCount) 0
      let averageEpisodes := jsCeil ((totalEpisodes : Rat) / (l.length : Rat))
      ⟨l.length, averageEpisodes⟩

/-- Ratings shape of KinopoiskRatings (kinopoisk_response.ts lines 113-119). -/
structure KinopoiskRatings where
  kp : Option Rat
  imdb : Option Rat
  filmCritics : Option Rat
  russianFilmCritics : Option Rat
  await : Option Rat
deriving DecidableEq, Repr

/-- A JavaScript number that is either an integer value or `NaN`. -/
inductive JSNum where
  | num (v : Int)
  | nan
deriving DecidableEq, Repr

/-- Embeds `Number(x.toFixed(0))`: round to the nearest integer with ties
resolved away from zero (ECMAScript `toFixed` removes the sign and then
picks the larger candidate on a tie). -/
def jsToFixed0 (q : Rat) : Int :=
  if q < 0 then -(Int.floor (-q + (1 : Rat) / (2 : Rat)))
  else Int.floor (q + (1 : Rat) / (2 : Rat))

/-- Embeds the `ratingKp` field expression of `createMovieShowFrom`
(DataFormatter.ts line 220): guarded by the truthiness of `rating?.kp`. -/
def ratingKpOf (rating : Option KinopoiskRatings) : JSNum :=
  match rating with
  | none => JSNum.num 0
  | some r =>
    match r.kp with
    | none => JSNum.num 0
    | some v => if v = 0 then JSNum.num 0 else JSNum.num (jsToFixed0 v)

/-- Embeds the `ratingImdb` field expression of `createMovieShowFrom`
(DataFormatter.ts line 221): the guard is the truthiness of the whole
`rating` object, so a present rating object whose `imdb` score is absent
reaches `Number(undefined)`, which is `NaN`. -/
def ratingImdbOf (rating : Option KinopoiskRatings) : JSNum :=
  match rating with
  | none => JSNum.num 0
  | some r =>
    match r.imdb with
    | none => JSNum.nan
    | some v => JSNum.num (jsToFixed0 v)

/-- Embeds `x || 0` defaulting on an optional number. -/
def jsNumOrZero (x : Option Rat) : Rat :=
  match x with
  | none => 0
  | some v => if v = 0 then 0 else v

/-- Embeds the `ratingFilmCritics` field expression (DataFormatter.ts line 222). -/
def ratingFilmCriticsOf (rating : Option KinopoiskRatings) : Rat :=
  jsNumOrZero (rating.bind KinopoiskRatings.filmCritics)

/-- Embeds the `ratingRussianFilmCritics` field expression (DataFormatter.ts line 223). -/
def ratingRussianFilmCriticsOf (rating : Option KinopoiskRatings) : Rat :=
  jsNumOrZero (rating.bind KinopoiskRatings.russianFilmCritics)

/-- Numeric value of a decimal digit character. -/
def digitVal (c : Char) : Nat := c.toNat - '0'.toNat

/-- Gregorian leap year test. -/
def isLeapYear (y : Nat) : Bool := (y % 4 = 0 && y % 100 ≠ 0) || y % 400 = 0

/-- Number of days of month `m` (1-12) of year `y`. -/
def daysInMonth (y m : Nat) : Nat :=
  if m = 2 then (if isLeapYear y then 29 else 28)
  else if m = 4 ∨ m = 6 ∨ m = 9 ∨ m = 11 then 30
  else 31

/-- Embeds the ECMAScript date-only forms of the Date Time String Format
accepted by `new Date`: `YYYY`, `YYYY-MM` and `YYYY-MM-DD`, interpreted as
UTC midnight. Out-of-range month or day components and every other string
yield an invalid date (`none`), matching the engines' validation of the
ISO format; time-of-day suffixes are not produced by any Kinopoisk date
field and are not modelled. -/
def parseISODateOnly (s : String) : Option (Nat × Nat × Nat) :=
  match s.data with
  | [y1, y2, y3, y4] =>
    if y1.isDigit && y2.isDigit && y3.isDigit && y4.isDigit then
      some (1000 * digitVal y1 + 100 * digitVal y2 + 10 * digitVal y3 + digitVal y4, 1, 1)
    else none
  | [y1, y2, y3, y4, '-', m1, m2] =>
    if y1.isDigit && y2.isDigit && y3.isDigit && y4.isDigit && m1.isDigit && m2.isDigit then
      let y := 1000 * digitVal y1 + 100 * digitVal y2 + 10 * digitVal y3 + digitVal y4
      let m := 10 * digitVal m1 + digitVal m2
      if 1 ≤ m && m ≤ 12 then some (y, m, 1) else none
    else none
  | [y1, y2, y3, y4, '-', m1, m2, '-', d1, d2] =>
    if y1.isDigit && y2.isDigit && y3.isDigit && y4.isDigit
        && m1.isDigit && m2.isDigit && d1.isDigit && d2.isDigit then
      let y := 1000 * digitVal y1 + 100 * digitVal y2 + 10 * digitVal y3 + digitVal y4
      let m := 10 * digitVal m1 + digitVal m2
      let d := 10 * digitVal d1 + digitVal d2
      if 1 ≤ m && m ≤ 12 && 1 ≤ d && d ≤ daysInMonth y m then some (y, m, d) else none
    else none
  | _ => none

/-- Zero-pads a number to two digits. -/
def pad2 (n : Nat) : String := if n < 10 then "0" ++ toString n else toString n

/-- Zero-pads a number to four digits. -/
def pad4 (n : Nat) : String :=
  if n < 10 then "000" ++ toString n
  else if n < 100 then "00" ++ toString n
  else if n < 1000 then "0" ++ toString n
  else toString n

/-- The date part of `toISOString` for a UTC calendar date. -/
def renderISODate (y m d : Nat) : String :=
  pad4 y ++ "-" ++ pad2 m ++ "-" ++ pad2 d

/-- Embeds `DataFormatter.formatDate` (DataFormatter.ts lines 571-590) under
a UTC environment: `new Date` on a date-only string yields UTC midnight,
`getFullYear` yields its year, and `toISOString().split("T")[0]` renders
the same calendar date. -/
def formatDate (dateString : Option String) : String :=
  match dateString with
  | none => ""
  | some s =>
    if s = "" then ""
    else
      match parseISODateOnly s with
      | none => ""
      | some (y, m, d) =>
        if y < 1800 ∨ y > 2100 then "" else renderISODate y m d

/-- Embeds the common premiere date field expression of `createMovieShowFrom`
(DataFormatter.ts lines 278-293: the world, russia, digital and cinema
premiere fields all have this shape). -/
def premiereDateField (d : Option String) : List String :=
  formatArray [FItem.str (formatDate d)] FormatType.SHORT_VALUE none MAX_ARRAY_ITEMS

/-- Embeds the value selected for the `distributorRelease` field
(DataFormatter.ts lines 341-345): `this.formatDate(x) || x || ""`. -/
def selectedDistributorRelease (distributorRelease : Option String) : String :=
  let fd := formatDate distributorRelease
  if fd ≠ "" then fd
  else
    match distributorRelease with
    | none => ""
    | some s => if s ≠ "" then s else ""

/-- Embeds the `distributorRelease` field expression of `createMovieShowFrom`
(DataFormatter.ts lines 339-348). -/
def distributorReleaseField (distributorRelease : Option String) : List String :=
  formatArray [FItem.str (selectedDistributorRelease distributorRelease)]
    FormatType.SHORT_VALUE none MAX_ARRAY_ITEMS

/-- Word character of the regex class `\w`. -/
def isWordChar (c : Char) : Bool :=
  c.isAlpha || c.isDigit || c = '_'

/-- Helper bound: dropping a prefix cannot lengthen a list. -/
theorem dropWhile_length_le {α : Type} (p : α → Bool) (l : List α) :
    (l.dropWhile p).length ≤ l.length := by
  induction l with
  | nil => exact Nat.le_refl _
  | cons a l ih =>
    rw [List.dropWhile_cons]
    split
    · exact Nat.le_trans ih (Nat.le_succ _)
    · exact Nat.le_refl _

/-- Embeds the global replacement of `/<[^>]*>/` by the empty string
(DataFormatter.ts line 624): at a `<`, the text up to and through the next
`>` is removed; a `<` with no later `>` cannot be matched and stays. -/
def stripTagsAux : List Char → List Char
  | [] => []
  | c :: cs =>
    if c = '<' then
      match h : cs.dropWhile (fun x => x ≠ '>') with
      | [] => c :: stripTagsAux cs
      | _ :: after => stripTagsAux after
    else c :: stripTagsAux cs
termination_by l => l.length
decreasing_by
  · simp only [List.length_cons]; omega
  · have hle := dropWhile_length_le (fun x => decide (x ≠ '>')) cs
    rw [h] at hle
    simp only [List.length_cons] at hle ⊢
    omega
  · simp only [List.length_cons]; omega

/-- The characters inspected for `&#?\w+;` after an ampersand: an optional
leading `#` is skipped. -/
def entityBody (cs : List Char) : List Char :=
  if cs.head? = some '#' then cs.tail else cs

/-- Helper bound for termination of the residual-entity removal. -/
theorem entityBody_length_le (cs : List Char) : (entityBody cs).length ≤ cs.length := by
  unfold entityBody
  split
  · exact Nat.le_trans (Nat.le_of_eq cs.length_tail) (Nat.sub_le _ _)
  · exact Nat.le_refl _

/-- Embeds the global replacement of the residual entity pattern `/&#?\w+;/`
by the empty string (DataFormatter.ts line 632): an `&`, an optional `#`,
one or more word characters, and a closing `;` are removed together. -/
def stripEntitiesAux : List Char → List Char
  | [] => []
  | c :: cs =>
    if c = '&' then
      match h : (entityBody cs).dropWhile isWordChar with
      | ';' :: rest =>
        if (entityBody cs).takeWhile isWordChar = [] then c :: stripEntitiesAux cs
        else stripEntitiesAux rest
      | _ => c :: stripEntitiesAux cs
    else c :: stripEntitiesAux cs
termination_by l => l.length
decreasing_by
  · simp only [List.length_cons]; omega
  · have hle := dropWhile_length_le isWordChar (entityBody cs)
    have hb := entityBody_length_le cs
    rw [h] at hle
    simp only [List.length_cons] at hle ⊢
    omega
  · simp only [List.length_cons]; omega
  · simp only [List.length_cons]; omega

/-- Replaces every occurrence of a non-empty literal pattern, scanning left
to right and never rescanning an inserted replacement: the behaviour of a
global literal-regex `replace`. -/
def replaceAllAux (pat repl : List Char) : List Char → List Char
  | [] => []
  | c :: cs =>
    if h : pat ≠ [] ∧ pat.isPrefixOf (c :: cs) then
      repl ++ replaceAllAux pat repl ((c :: cs).drop pat.length)
    else c :: replaceAllAux pat repl cs
termination_by l => l.length
decreasing_by
  · have hpat : 0 < pat.length := List.length_pos.mpr h.1
    simp only [List.length_drop, List.length_cons]
    omega
  · simp only [List.length_cons]; omega

/-- The HTML entity decode table HTML_ENTITIES (DataFormatter.ts lines
25-40) in its source iteration order. -/
def HTML_ENTITIES : List (List Char × List Char) :=
  [("&laquo;".data, "«".data), ("&raquo;".data, "»".data),
   ("&ldquo;".data, "\"".data), ("&rdquo;".data, "\"".data),
   ("&lsquo;".data, "\x27".data), ("&rsquo;".data, "\x27".data),
   ("&quot;".data, "\"".data), ("&amp;".data, "&".data),
   ("&lt;".data, "<".data), ("&gt;".data, ">".data),
   ("&nbsp;".data, " ".data), ("&ndash;".data, "–".data),
   ("&mdash;".data, "—".data), ("&hellip;".data, "…".data)]

/-- Embeds `DataFormatter.stripHtmlTags` (DataFormatter.ts lines 622-635). -/
def stripHtmlTags (text : String) : String :=
  let cleanText := stripTagsAux text.data
  let cleanText := HTML_ENTITIES.foldl (fun acc pr => replaceAllAux pr.1 pr.2 acc) cleanText
  let cleanText := stripEntitiesAux cleanText
  jsTrim (String.mk cleanText)

/-- Fact input shape of `processFacts` (DataFormatter.ts line 546:
`Array<{ spoiler?: boolean; value: string }>`). -/
structure FactInput where
  spoiler : Option Bool
  value : String
deriving DecidableEq, Repr

/-- Embeds `DataFormatter.processFacts` (DataFormatter.ts lines 545-555):
`!fact.spoiler` keeps exactly the facts whose spoiler flag is absent or
`false`. -/
def processFacts (facts : List FactInput) : List String :=
  ((facts.filter (fun fact =>
      fact.spoiler != some true && fact.value != "" && jsTrim fact.value != "")).take
    MAX_FACTS_COUNT).map (fun fact => stripHtmlTags fact.value)

/-- Person input shape of KinopoiskPerson (kinopoisk_response.ts lines 92-100). -/
structure KinopoiskPerson where
  id : Option Int
  name : String
  enName : Option String
  description : Option String
  profession : Option String
  enProfession : String
  photo : Option String
deriving DecidableEq, Repr

/-- Return shape of `extractPeople` (DataFormatter.ts lines 470-481). -/
structure PeopleBuckets where
  directors : List Entity
  actors : List Entity
  writers : List Entity
  producers : List Entity
deriving DecidableEq, Repr

/-- One loop iteration of `DataFormatter.extractPeople`
(DataFormatter.ts lines 483-502): skip a person with a falsy name or a
falsy role key, then push into the bucket selected by the `switch`; a role
outside the four cases falls through without a push. -/
def extractPeopleStep (result : PeopleBuckets) (person : KinopoiskPerson) : PeopleBuckets :=
  if person.name = "" ∨ person.enProfession = "" then result
  else
    let personData : Entity := ⟨person.name, person.id⟩
    if person.enProfession = "director" then
      { result with directors := result.directors ++ [personData] }
    else if person.enProfession = "actor" then
      { result with actors := result.actors ++ [personData] }
    else if person.enProfession = "writer" then
      { result with writers := result.writers ++ [personData] }
    else if person.enProfession = "producer" then
      { result with producers := result.producers ++ [personData] }
    else result

/-- Embeds `DataFormatter.extractPeople` (DataFormatter.ts lines 470-505). -/
def extractPeople (persons : List KinopoiskPerson) : PeopleBuckets :=
  persons.foldl extractPeopleStep ⟨[], [], [], []⟩

/-- The persons kept for one role: valid name, valid role key, and the role
equal to `role`. Used to characterise the buckets of `extractPeople`. -/
def bucketOf (role : String) (persons : List KinopoiskPerson) : List Entity :=
  (persons.filter (fun p => p.name != "" && p.enProfession == role)).map
    (fun p => ⟨p.name, p.id⟩)

/-- The entities of a bucket that survive the blank-name filter of
`formatArray`, truncated to the item cap. -/
def validEntities (l : List Entity) (maxItems : Nat) : List Entity :=
  (l.filter (fun e => jsTrim e.name != "")).take maxItems

/-- The four parallel representations of one person bucket produced by
`createMovieShowFrom` (DataFormatter.ts lines 157-208) are index-aligned:
each equals the same filtered, truncated entity list rendered element-wise,
so they have equal lengths and position `i` of each renders the same
underlying person. -/
def alignedRepresentations (l : List Entity) (path : Option String) : Prop :=
  formatArray (l.map FItem.ent) FormatType.SHORT_VALUE none MAX_ARRAY_ITEMS
      = (validEntities l MAX_ARRAY_ITEMS).map (fun e => cleanTextForMetadata e.name)
  ∧ formatArray (l.map FItem.ent) FormatType.LINK none MAX_ARRAY_ITEMS
      = (validEntities l MAX_ARRAY_ITEMS).map (fun e => renderLink e.name)
  ∧ formatArray (l.map FItem.ent) FormatType.LINK_WITH_PATH path MAX_ARRAY_ITEMS
      = (validEntities l MAX_ARRAY_ITEMS).map (fun e => renderLinkWithPath path e.name)
  ∧ formatArray (l.map FItem.ent) FormatType.LINK_ID_WITH_PATH path MAX_ARRAY_ITEMS
      = (validEntities l MAX_ARRAY_ITEMS).map (renderLinkIdWithPath path)

/-- Modelled from the spec: `ApiValidator.isValidToken` (the ApiValidator
module is not under src/). Spec 4.1: "true iff token, trimmed, is
non-empty". -/
def isValidToken (token : String) : Bool := jsTrim token != ""

/-- Modelled from the spec: `ApiValidator.isValidSearchQuery`. Spec 4.1:
"true iff query, trimmed, is non-empty". -/
def isValidSearchQuery (query : String) : Bool := jsTrim query != ""

/-- Modelled from the spec: `ApiValidator.isValidMovieId`. Spec 4.1:
"true iff id is an integer > 0". -/
def isValidMovieId (id : Int) : Bool := 0 < id

/-- Modelled from the spec: the localized message `t("provider.enterMovieTitle")`
(the i18n module is not under src/). -/
def tEnterMovieTitle : String := "Please enter a movie title"

/-- Modelled from the spec: the localized message `t("provider.tokenRequired")`. -/
def tTokenRequired : String := "API token is required"

/-- Modelled from the spec: `tWithParams("provider.nothingFound", { query })`;
spec 4.2 requires the message to include the original query text. -/
def tNothingFound (query : String) : String := "Nothing found for query " ++ query

/-- Modelled from the spec: the localized message `t("provider.tryChangeQuery")`. -/
def tTryChangeQuery : String := "Try changing the query"

/-- Search result item shape of KinopoiskSuggestItem
(kinopoisk_response.ts lines 11-19; the optional poster and rating fields
play no role in the search flow and are omitted). -/
structure SuggestItem where
  id : Int
  name : String
  alternativeName : String
  type : String
  year : Int
deriving DecidableEq, Repr

/-- Search response shape of KinopoiskSuggestItemsResponse; `docs` is kept
optional because `searchByQuery` itself guards `!searchResults.docs`. -/
structure SuggestItemsResponse where
  docs : Option (List SuggestItem)
deriving DecidableEq, Repr

/-- Error raised by the search flow, tagged by the site that throws it:
`invalidInput` for the pre-network validator throws (provider.ts lines
100-102 and 52-54) and `emptyResult` for the zero-documents throw
(provider.ts lines 113-119). -/
inductive SearchError where
  | invalidInput (msg : String)
  | emptyResult (msg : String)
deriving DecidableEq, Repr

/-- Embeds `KinopoiskProvider.searchByQuery` (provider.ts lines 96-122)
together with the token guard of `apiGet` (provider.ts lines 52-54). The
`response` argument is the reply the one network request would return, and
the second component counts the network requests issued. -/
def searchByQuery (query token : String) (response : SuggestItemsResponse) :
    Except SearchError (List SuggestItem) × Nat :=
  if isValidSearchQuery query = false then
    (Except.error (SearchError.invalidInput tEnterMovieTitle), 0)
  else if isValidToken token = false then
    (Except.error (SearchError.invalidInput tTokenRequired), 0)
  else
    match response.docs with
    | none =>
      (Except.error (SearchError.emptyResult (tNothingFound query ++ " " ++ tTryChangeQuery)), 1)
    | some docs =>
      if docs.length = 0 then
        (Except.error (SearchError.emptyResult (tNothingFound query ++ " " ++ tTryChangeQuery)), 1)
      else (Except.ok docs, 1)

/-! Theorems about the embedded program. -/

/-- Helper: a singleton input whose string is blank after trimming is
omitted from the output in every mode. -/
theorem formatArray_single_blank (s : String) (ft : FormatType) (path : Option String)
    (n : Nat) (h : jsTrim s = "") : formatArray [FItem.str s] ft path n = [] := by
  cases ft <;> simp [formatArray, entKeep, projectToString, keepNonBlankStr, h]

/-- Claim C2: for every FormatMode value, optional folder path and cap,
`formatArray` on an empty input collection returns the empty array; a blank
entry degrades to omission from the output (a singleton blank-string input
yields the empty array in every mode); `cleanTextForMetadata` maps the
empty string to the empty string. Totality of the embedded functions is
the never-throws guarantee. -/
theorem formatArray_empty_input_safe :
    (∀ ft : FormatType, ∀ path : Option String, ∀ n : Nat, formatArray [] ft path n = [])
    ∧ (∀ s : String, ∀ ft : FormatType, ∀ path : Option String, ∀ n : Nat,
        jsTrim s = "" → formatArray [FItem.str s] ft path n = [])
    ∧ cleanTextForMetadata "" = "" := by
  refine ⟨?_, ?_, rfl⟩
  · intro ft path n
    cases ft <;> simp [formatArray]
  · intro s ft path n h
    exact formatArray_single_blank s ft path n h

/-- Witness for C2 at the concrete blank input. -/
theorem formatArray_empty_input_safe_witness :
    formatArray [FItem.str " "] FormatType.SHORT_VALUE none 50 = [] :=
  formatArray_empty_input_safe.2.1 " " FormatType.SHORT_VALUE none 50 (by decide)

/-- Claim C7: the output of `formatArray` never exceeds the item cap (the
default cap is 50) regardless of the input length; the fact list is capped
at 5 by the caller `processFacts`, while `formatArray` itself at the
default cap lets a sixth fact through. -/
theorem formatArray_cap :
    (∀ items ft path n, (formatArray items ft path n).length ≤ n)
    ∧ (∀ items ft path, (formatArray items ft path MAX_ARRAY_ITEMS).length ≤ 50)
    ∧ (∀ facts, (processFacts facts).length ≤ 5)
    ∧ (formatArray (["f1", "f2", "f3", "f4", "f5", "f6"].map FItem.str)
        FormatType.LONG_TEXT none MAX_ARRAY_ITEMS).length = 6 := by
  have hlen : ∀ items ft path n, (formatArray items ft path n).length ≤ n := by
    intro items ft path n
    cases ft <;> simp [formatArray, List.length_take] <;> omega
  refine ⟨hlen, fun items ft path => hlen items ft path MAX_ARRAY_ITEMS, ?_, by decide⟩
  intro facts
  unfold processFacts MAX_FACTS_COUNT
  simp [List.length_take]

/-- Claim C1 (evidence of the code bug): with a rating object present whose
imdb score is absent, the `ratingImdb` field expression evaluates
`Number(undefined)` and yields `NaN` instead of the specified 0 — the guard
tests the whole `rating` object instead of the imdb score (contrast the
`ratingKp` expression). On a record with no rating object at all, every
rating field is 0, and present scores round to the nearest integer. -/
theorem ratingImdb_nan_on_present_rating_without_imdb :
    ratingImdbOf (some ⟨some ((17 : Rat) / 2), none, none, none, none⟩) = JSNum.nan
    ∧ JSNum.nan ≠ JSNum.num 0
    ∧ ratingKpOf (some ⟨some ((17 : Rat) / 2), none, none, none, none⟩) = JSNum.num 9
    ∧ ratingKpOf none = JSNum.num 0
    ∧ ratingImdbOf none = JSNum.num 0
    ∧ ratingFilmCriticsOf none = 0
    ∧ ratingRussianFilmCriticsOf none = 0
    ∧ ratingImdbOf (some ⟨none, some ((41 : Rat) / 5), none, none, none⟩) = JSNum.num 8 := by
  have h9 : jsToFixed0 ((17 : Rat) / 2) = 9 := by norm_num [jsToFixed0]
  have h8 : jsToFixed0 ((41 : Rat) / 5) = 8 := by norm_num [jsToFixed0]
  refine ⟨rfl, by decide, ?_, rfl, rfl, rfl, rfl, ?_⟩
  · show (if (17 : Rat) / 2 = 0 then JSNum.num 0 else JSNum.num (jsToFixed0 ((17 : Rat) / 2)))
      = JSNum.num 9
    rw [if_neg (by norm_num), h9]
  · show JSNum.num (jsToFixed0 ((41 : Rat) / 5)) = JSNum.num 8
    rw [h8]

/-- Helper: the running total of `calculateSeasonsData` is the list sum. -/
theorem foldl_episodes (l : List KinopoiskSeasonInfo) (a : Int) :
    l.foldl (fun total season => total + season.episodesCount) a
      = a + (l.map KinopoiskSeasonInfo.episodesCount).sum := by
  induction l generalizing a with
  | nil => simp
  | cons s t ih => simp [ih, add_assoc]

/-- Claim C6: season aggregation returns count = list length and average =
the ceiling of total episodes over the count for a nonempty list, (0, 0)
for an absent or empty list, and episode counts [10, 10, 11] yield
count 3 and average 11; the average is characterised as the least integer
at or above the exact mean. -/
theorem calculateSeasonsData_spec :
    calculateSeasonsData none = ⟨0, 0⟩
    ∧ calculateSeasonsData (some []) = ⟨0, 0⟩
    ∧ (∀ l : List KinopoiskSeasonInfo, l ≠ [] →
        (calculateSeasonsData (some l)).count = l.length
        ∧ (calculateSeasonsData (some l)).averageEpisodesPerSeason
            = ⌈(((l.map KinopoiskSeasonInfo.episodesCount).sum : Int) : Rat) / (l.length : Rat)⌉
        ∧ ((l.map KinopoiskSeasonInfo.episodesCount).sum : Int)
            ≤ (calculateSeasonsData (some l)).averageEpisodesPerSeason * l.length
        ∧ ((calculateSeasonsData (some l)).averageEpisodesPerSeason - 1) * l.length
            < ((l.map KinopoiskSeasonInfo.episodesCount).sum : Int))
    ∧ calculateSeasonsData (some [⟨1, 10⟩, ⟨2, 10⟩, ⟨3, 11⟩]) = ⟨3, 11⟩ := by
  refine ⟨rfl, rfl, ?_, ?_⟩
  · intro l hl
    have hlen : l.length ≠ 0 := fun h => hl (List.length_eq_zero.mp h)
    have hcalc : calculateSeasonsData (some l)
        = ⟨l.length,
           jsCeil ((((l.map KinopoiskSeasonInfo.episodesCount).sum : Int) : Rat)
             / (l.length : Rat))⟩ := by
      simp only [calculateSeasonsData, hlen, if_false, foldl_episodes, zero_add]
    set T : Int := (l.map KinopoiskSeasonInfo.episodesCount).sum with hT
    have hLpos : (0 : Rat) < (l.length : Rat) := by
      exact_mod_cast Nat.pos_of_ne_zero hlen
    refine ⟨by rw [hcalc], by rw [hcalc]; rfl, ?_, ?_⟩
    · rw [hcalc]
      show T ≤ jsCeil ((T : Rat) / (l.length : Rat)) * (l.length : Int)
      have h1 : ((T : Rat) / (l.length : Rat)) ≤ (jsCeil ((T : Rat) / (l.length : Rat)) : Rat) :=
        Int.le_ceil _
      have h2 : (T : Rat) ≤ (jsCeil ((T : Rat) / (l.length : Rat)) : Rat) * (l.length : Rat) :=
        (div_le_iff hLpos).mp h1
      exact_mod_cast h2
    · rw [hcalc]
      show (jsCeil ((T : Rat) / (l.length : Rat)) - 1) * (l.length : Int) < T
      have h1 : (jsCeil ((T : Rat) / (l.length : Rat)) : Rat) < (T : Rat) / (l.length : Rat) + 1 :=
        Int.ceil_lt_add_one _
      have h2 : ((jsCeil ((T : Rat) / (l.length : Rat)) : Rat) - 1) < (T : Rat) / (l.length : Rat) := by
        linarith
      have h3 : ((jsCeil ((T : Rat) / (l.length : Rat)) : Rat) - 1) * (l.length : Rat) < (T : Rat) :=
        (lt_div_iff hLpos).mp h2
      exact_mod_cast h3
  · show calculateSeasonsData (some [⟨1, 10⟩, ⟨2, 10⟩, ⟨3, 11⟩]) = ⟨3, 11⟩
    have hc : jsCeil (((31 : Int) : Rat) / ((3 : Nat) : Rat)) = 11 := by
      unfold jsCeil
      rw [Int.ceil_eq_iff] <;> norm_num
    simp only [calculateSeasonsData, foldl_episodes]
    norm_num
    exact hc

/-- Witness for C6 at the concrete season list of the claim. -/
theorem calculateSeasonsData_spec_witness :
    (calculateSeasonsData (some [⟨1, 10⟩, ⟨2, 10⟩, ⟨3, 11⟩])).count
      = ([⟨1, 10⟩, ⟨2, 10⟩, ⟨3, 11⟩] : List KinopoiskSeasonInfo).length :=
  (calculateSeasonsData_spec.2.2.1 [⟨1, 10⟩, ⟨2, 10⟩, ⟨3, 11⟩] (by decide)).1

/-- Claim C4: date normalization returns the empty string when the input is
absent, unparseable, or has a year outside [1800, 2100], and otherwise
renders the parsed UTC calendar date in YYYY-MM-DD form; in particular
"1994-09-10" maps to itself, "not-a-date" maps to "", and every parsed
date with year 1700 maps to "". -/
theorem formatDate_spec :
    formatDate none = ""
    ∧ (∀ s, parseISODateOnly s = none → formatDate (some s) = "")
    ∧ (∀ s y m d, parseISODateOnly s = some (y, m, d) → 1800 ≤ y → y ≤ 2100 →
        formatDate (some s) = renderISODate y m d)
    ∧ (∀ s y m d, parseISODateOnly s = some (y, m, d) → (y < 1800 ∨ 2100 < y) →
        formatDate (some s) = "")
    ∧ formatDate (some "1994-09-10") = "1994-09-10"
    ∧ formatDate (some "not-a-date") = ""
    ∧ (∀ s m d, parseISODateOnly s = some (1700, m, d) → formatDate (some s) = "") := by
  have hyes : ∀ s y m d, parseISODateOnly s = some (y, m, d) → 1800 ≤ y → y ≤ 2100 →
      formatDate (some s) = renderISODate y m d := by
    intro s y m d h h1 h2
    have hs : s ≠ "" := by
      intro e
      rw [e] at h
      simp [parseISODateOnly] at h
    have hrange : ¬(y < 1800 ∨ y > 2100) := by omega
    simp [formatDate, hs, h, hrange]
  have hno : ∀ s y m d, parseISODateOnly s = some (y, m, d) → (y < 1800 ∨ 2100 < y) →
      formatDate (some s) = "" := by
    intro s y m d h hrange
    have hs : s ≠ "" := by
      intro e
      rw [e] at h
      simp [parseISODateOnly] at h
    have hrange' : y < 1800 ∨ y > 2100 := hrange
    simp [formatDate, hs, h, hrange']
  refine ⟨rfl, ?_, hyes, hno, by decide, by decide, ?_⟩
  · intro s h
    by_cases hs : s = ""
    · simp [formatDate, hs]
    · simp [formatDate, hs, h]
  · intro s m d h
    exact hno s 1700 m d h (Or.inl (by omega))

/-- Witness for C4 at a concrete in-range date. -/
theorem formatDate_spec_witness :
    formatDate (some "1850-06-05") = renderISODate 1850 6 5 :=
  formatDate_spec.2.2.1 "1850-06-05" 1850 6 5 (by decide) (by omega) (by omega)

/-- Claim C10: when date normalization fails (`formatDate` returns the
empty string) the `distributorRelease` field falls back to the raw
distributor release string, while every premiere date field degrades to
the empty array. -/
theorem distributorRelease_fallback :
    (∀ raw : String, formatDate (some raw) = "" →
        distributorReleaseField (some raw)
          = formatArray [FItem.str raw] FormatType.SHORT_VALUE none MAX_ARRAY_ITEMS)
    ∧ (∀ d : Option String, formatDate d = "" → premiereDateField d = []) := by
  constructor
  · intro raw h
    unfold distributorReleaseField selectedDistributorRelease
    rw [h]
    by_cases hr : raw = ""
    · simp [hr]
    · simp [hr]
  · intro d h
    unfold premiereDateField
    rw [h]
    exact formatArray_single_blank "" FormatType.SHORT_VALUE none MAX_ARRAY_ITEMS rfl

/-- Witness for C10 at a date rejected by the year range check. -/
theorem distributorRelease_fallback_witness :
    distributorReleaseField (some "1700-01-01")
      = formatArray [FItem.str "1700-01-01"] FormatType.SHORT_VALUE none MAX_ARRAY_ITEMS :=
  distributorRelease_fallback.1 "1700-01-01" (by decide)

/-- Claim C5 counterexample: the entity {name: "Doe", id: 0} has an id
present and the non-blank path "actors", yet LINK_ID_WITH_PATH renders the
id-less "[[Doe]]" form because `item.id` is falsy for 0, refuting the
claim that a present id always yields the "[[path/Id|Name]]" form. -/
theorem linkIdWithPath_zero_id_counterexample :
    formatArray [FItem.ent ⟨"Doe", some 0⟩] FormatType.LINK_ID_WITH_PATH (some "actors")
        MAX_ARRAY_ITEMS = ["\"[[Doe]]\""]
    ∧ (["\"[[Doe]]\""] : List String) ≠ ["\"[[actors/0|Doe]]\""] :=
  ⟨by decide, by decide⟩

/-- Claim C5 (amended): for every entity with a non-blank name,
LINK_ID_WITH_PATH renders "[[path/Id|Name]]" (name sanitized, the result
quote-wrapped) when a non-blank path and a truthy (nonzero) id are
present, "[[Id|Name]]" when only a truthy id is present, and "[[Name]]"
otherwise — an id of 0 is treated as absent; in particular
{name: "Doe", id: 7} with path "actors" renders "[[actors/7|Doe]]" and
{name: "Doe"} with no id renders "[[Doe]]". -/
theorem linkIdWithPath_rendering (e : Entity) (path : Option String)
    (h : jsTrim e.name ≠ "") :
    (pathTruthyNonBlank path = true → idTruthy e.id = true →
        formatArray [FItem.ent e] FormatType.LINK_ID_WITH_PATH path MAX_ARRAY_ITEMS
          = ["\"[[" ++ path.getD "" ++ "/" ++ toString (e.id.getD 0) ++ "|"
              ++ cleanTextForMetadata e.name ++ "]]\""])
    ∧ (pathTruthyNonBlank path = false → idTruthy e.id = true →
        formatArray [FItem.ent e] FormatType.LINK_ID_WITH_PATH path MAX_ARRAY_ITEMS
          = ["\"[[" ++ toString (e.id.getD 0) ++ "|" ++ cleanTextForMetadata e.name ++ "]]\""])
    ∧ (idTruthy e.id = false →
        formatArray [FItem.ent e] FormatType.LINK_ID_WITH_PATH path MAX_ARRAY_ITEMS
          = ["\"[[" ++ cleanTextForMetadata e.name ++ "]]\""])
    ∧ formatArray [FItem.ent ⟨"Doe", some 7⟩] FormatType.LINK_ID_WITH_PATH (some "actors")
        MAX_ARRAY_ITEMS = ["\"[[actors/7|Doe]]\""]
    ∧ formatArray [FItem.ent ⟨"Doe", none⟩] FormatType.LINK_ID_WITH_PATH (some "actors")
        MAX_ARRAY_ITEMS = ["\"[[Doe]]\""] := by
  have hne : e.name ≠ "" := by
    intro hn
    exact h (by rw [hn]; rfl)
  have hsingle : formatArray [FItem.ent e] FormatType.LINK_ID_WITH_PATH path MAX_ARRAY_ITEMS
      = [renderLinkIdWithPath path e] := by
    simp [formatArray, entKeep, hne, h, MAX_ARRAY_ITEMS]
  refine ⟨?_, ?_, ?_, by decide, by decide⟩
  · intro hp hi
    rw [hsingle]
    simp [renderLinkIdWithPath, hp, hi]
  · intro hp hi
    rw [hsingle]
    simp [renderLinkIdWithPath, hp, hi]
  · intro hi
    rw [hsingle]
    simp [renderLinkIdWithPath, hi]

/-- Witness for the amended C5 at a concrete entity, path and id. -/
theorem linkIdWithPath_rendering_witness :
    formatArray [FItem.ent ⟨"Zoe", some 3⟩] FormatType.LINK_ID_WITH_PATH (some "people")
        MAX_ARRAY_ITEMS
      = ["\"[[" ++ (some "people").getD "" ++ "/" ++ toString ((some (3 : Int)).getD 0) ++ "|"
          ++ cleanTextForMetadata "Zoe" ++ "]]\""] :=
  (linkIdWithPath_rendering ⟨"Zoe", some 3⟩ (some "people") (by decide)).1 (by decide) (by decide)

/-- Helper: whitespace-run collapsing emits no newline: every emitted
character is either a space or a non-whitespace input character. -/
theorem collapseWsAux_no_newline (l : List Char) : ∀ b, '\n' ∉ collapseWsAux b l := by
  induction l with
  | nil =>
    intro b
    simp [collapseWsAux]
  | cons c cs ih =>
    intro b
    unfold collapseWsAux
    by_cases hc : jsIsWhitespace c
    · rw [if_pos hc]
      cases b with
      | true => exact ih true
      | false =>
        simp only [Bool.false_eq_true, if_false]
        intro hmem
        rcases List.mem_cons.mp hmem with h1 | h1
        · exact absurd h1 (by decide)
        · exact ih true h1
    · rw [if_neg hc]
      intro hmem
      rcases List.mem_cons.mp hmem with h1 | h1
      · exact hc (h1 ▸ (by decide : jsIsWhitespace '\n' = true))
      · exact ih false h1

/-- Helper: membership survives removal of a `dropWhile` pass. -/
theorem mem_of_mem_dropWhile {α : Type} {p : α → Bool} {c : α} :
    ∀ {l : List α}, c ∈ l.dropWhile p → c ∈ l := by
  intro l
  induction l with
  | nil => exact fun h => h
  | cons a t ih =>
    intro h
    rw [List.dropWhile_cons] at h
    split at h
    · exact List.mem_cons_of_mem _ (ih h)
    · exact h

/-- Helper: trimming only removes characters. -/
theorem mem_of_mem_jsTrimList {c : Char} {l : List Char} (h : c ∈ jsTrimList l) : c ∈ l := by
  unfold jsTrimList at h
  rw [List.mem_reverse] at h
  have h1 := mem_of_mem_dropWhile h
  rw [List.mem_reverse] at h1
  exact mem_of_mem_dropWhile h1

/-- Helper: the cleaned LONG_TEXT body contains no newline. -/
theorem longTextClean_no_newline (s : String) : '\n' ∉ (longTextClean s).data := by
  intro hmem
  unfold longTextClean jsTrim at hmem
  have h2 : '\n' ∈ collapseWs (newlinesToSpaces s.data) := mem_of_mem_jsTrimList hmem
  exact collapseWsAux_no_newline _ false h2

/-- Claim C8: every element of a LONG_TEXT-formatted array begins and ends
with a double quote (one wrapping pair added around the cleaned body) and
contains no newline character. -/
theorem longText_quoted_no_newline (items : List FItem) (path : Option String) (n : Nat)
    (out : String) (hmem : out ∈ formatArray items FormatType.LONG_TEXT path n) :
    out.data.head? = some '"' ∧ out.data.reverse.head? = some '"' ∧ '\n' ∉ out.data := by
  have hform : formatArray items FormatType.LONG_TEXT path n
      = (((items.map projectToString).filterMap keepNonBlankStr).take n).map renderLongText := by
    simp [formatArray]
  rw [hform] at hmem
  obtain ⟨item, _, rfl⟩ := List.mem_map.mp hmem
  have hdata : (renderLongText item).data = '"' :: ((longTextClean item).data ++ ['"']) := by
    show (("\"" ++ longTextClean item) ++ "\"").data = _
    rw [String.data_append, String.data_append]
    rfl
  refine ⟨?_, ?_, ?_⟩
  · rw [hdata]
    rfl
  · rw [hdata]
    simp
  · rw [hdata]
    intro hmem2
    rcases List.mem_cons.mp hmem2 with h1 | h1
    · exact absurd h1 (by decide)
    · rcases List.mem_append.mp h1 with h2 | h2
      · exact longTextClean_no_newline item h2
      · exact absurd (List.mem_singleton.mp h2) (by decide)

/-- Witness for C8 at a concrete two-line input. -/
theorem longText_quoted_no_newline_witness :
    ("\"a b\"" : String).data.head? = some '"'
    ∧ ("\"a b\"" : String).data.reverse.head? = some '"'
    ∧ '\n' ∉ ("\"a b\"" : String).data :=
  longText_quoted_no_newline [FItem.str "a\nb"] none 50 "\"a b\"" (by decide)

/-- Claim C9: search fails with an InvalidInput error and zero network
requests when the validator rejects the query or the token; with a valid
query and token it issues one request, fails with an EmptyResult error
whose message embeds the original query text when the API returns no
documents (absent or empty `docs`), and otherwise returns the document
list verbatim. -/
theorem searchByQuery_spec (query token : String) (response : SuggestItemsResponse) :
    (isValidSearchQuery query = false →
        searchByQuery query token response
          = (Except.error (SearchError.invalidInput tEnterMovieTitle), 0))
    ∧ (isValidSearchQuery query = true → isValidToken token = false →
        searchByQuery query token response
          = (Except.error (SearchError.invalidInput tTokenRequired), 0))
    ∧ (isValidSearchQuery query = true → isValidToken token = true →
        ((response.docs = none ∨ response.docs = some [] →
            searchByQuery query token response
              = (Except.error (SearchError.emptyResult
                  (tNothingFound query ++ " " ++ tTryChangeQuery)), 1)
            ∧ tNothingFound query ++ " " ++ tTryChangeQuery
                = "Nothing found for query " ++ (query ++ (" " ++ tTryChangeQuery)))
        ∧ (∀ docs, response.docs = some docs → docs ≠ [] →
            searchByQuery query token response = (Except.ok docs, 1)))) := by
  refine ⟨?_, ?_, ?_⟩
  · intro hq
    simp [searchByQuery, hq]
  · intro hq ht
    simp [searchByQuery, hq, ht]
  · intro hq ht
    constructor
    · intro hdocs
      constructor
      · rcases hdocs with h1 | h1 <;> simp [searchByQuery, hq, ht, h1]
      · unfold tNothingFound
        rw [String.append_assoc, String.append_assoc]
    · intro docs hdocs hne
      have hlen : docs.length ≠ 0 := fun h0 => hne (List.length_eq_zero.mp h0)
      simp [searchByQuery, hq, ht, hdocs, hlen]

/-- Witness for C9: a valid query and token with an empty result set
produce the EmptyResult error carrying the query inside its message. -/
theorem searchByQuery_spec_witness :
    searchByQuery "matrix" "tok" ⟨some []⟩
      = (Except.error (SearchError.emptyResult
          (tNothingFound "matrix" ++ " " ++ tTryChangeQuery)), 1) :=
  (((searchByQuery_spec "matrix" "tok" ⟨some []⟩).2.2 (by decide) (by decide)).1
    (Or.inr rfl)).1

/-- Helper: one step of the bucket characterisation. -/
theorem bucketOf_cons (role : String) (p : KinopoiskPerson) (ps : List KinopoiskPerson) :
    bucketOf role (p :: ps)
      = if p.name ≠ "" ∧ p.enProfession = role
        then (⟨p.name, p.id⟩ : Entity) :: bucketOf role ps
        else bucketOf role ps := by
  by_cases h : p.name ≠ "" ∧ p.enProfession = role
  · rw [if_pos h]
    simp [bucketOf, List.filter_cons, h.1, h.2]
  · rw [if_neg h]
    rw [not_and_or, not_ne_iff] at h
    rcases h with h | h
    · simp [bucketOf, List.filter_cons, h]
    · simp [bucketOf, List.filter_cons, h]

/-- Helper: the loop of `extractPeople` appends, to each accumulator
bucket, exactly the persons with a valid name and the matching role. -/
theorem extractPeople_foldl (persons : List KinopoiskPerson) (acc : PeopleBuckets) :
    persons.foldl extractPeopleStep acc =
      ⟨acc.directors ++ bucketOf "director" persons,
       acc.actors ++ bucketOf "actor" persons,
       acc.writers ++ bucketOf "writer" persons,
       acc.producers ++ bucketOf "producer" persons⟩ := by
  induction persons generalizing acc with
  | nil => simp [bucketOf]
  | cons p ps ih =>
    rw [List.foldl_cons, ih]
    rw [bucketOf_cons, bucketOf_cons, bucketOf_cons, bucketOf_cons]
    unfold extractPeopleStep
    by_cases h1 : p.name = "" ∨ p.enProfession = ""
    · rw [if_pos h1]
      rcases h1 with h1 | h1 <;> simp [h1]
    · rw [if_neg h1]
      rw [not_or] at h1
      by_cases hd : p.enProfession = "director"
      · simp [hd, h1.1]
      · rw [if_neg hd]
        by_cases ha : p.enProfession = "actor"
        · simp [ha, h1.1, hd]
        · rw [if_neg ha]
          by_cases hw : p.enProfession = "writer"
          · simp [hw, h1.1, hd, ha]
          · rw [if_neg hw]
            by_cases hp : p.enProfession = "producer"
            · simp [hp, h1.1, hd, ha, hw]
            · rw [if_neg hp]
              simp [h1.1, hd, ha, hw, hp]

/-- Helper: the buckets of `extractPeople` are exactly the role filters. -/
theorem extractPeople_eq (persons : List KinopoiskPerson) :
    extractPeople persons
      = ⟨bucketOf "director" persons, bucketOf "actor" persons,
         bucketOf "writer" persons, bucketOf "producer" persons⟩ := by
  unfold extractPeople
  rw [extractPeople_foldl]
  rfl

/-- Helper: every entity of a role bucket has a non-empty name. -/
theorem bucketOf_name_ne (role : String) (persons : List KinopoiskPerson) :
    ∀ e ∈ bucketOf role persons, e.name ≠ "" := by
  intro e he
  unfold bucketOf at he
  obtain ⟨p, hp, rfl⟩ := List.mem_map.mp he
  have hcond := (List.mem_filter.mp hp).2
  rw [Bool.and_eq_true, bne_iff_ne] at hcond
  exact hcond.1

/-- Helper: on an entity list with non-empty names, the projection and
blank filter of `formatArray` keep exactly the names that are non-blank
after trimming. -/
theorem filterNonBlank_ent (l : List Entity) (h : ∀ e ∈ l, e.name ≠ "") :
    ((l.map FItem.ent).map projectToString).filterMap keepNonBlankStr
      = (l.filter (fun e => jsTrim e.name != "")).map Entity.name := by
  induction l with
  | nil => simp
  | cons e es ih =>
    have he : e.name ≠ "" := h e (List.mem_cons_self e es)
    have ih' := ih (fun x hx => h x (List.mem_cons_of_mem e hx))
    simp only [List.map_cons, List.filterMap_cons, List.filter_cons]
    rw [show projectToString (FItem.ent e) = FItem.str e.name from by
      simp [projectToString, he]]
    by_cases hb : jsTrim e.name = ""
    · simp only [List.filterMap_map] at ih'
      simp [keepNonBlankStr, hb]
      simpa [Function.comp_def] using ih'
    · simp only [List.filterMap_map] at ih'
      simp [keepNonBlankStr, hb]
      simpa [Function.comp_def] using ih'

/-- Helper: on an entity list with non-empty names, the
LINK_ID_WITH_PATH filter keeps exactly the entities whose name is
non-blank after trimming. -/
theorem filterEnt_nonBlank (l : List Entity) (h : ∀ e ∈ l, e.name ≠ "") :
    (l.map FItem.ent).filterMap entKeep = l.filter (fun e => jsTrim e.name != "") := by
  induction l with
  | nil => simp
  | cons e es ih =>
    have he : e.name ≠ "" := h e (List.mem_cons_self e es)
    have ih' := ih (fun x hx => h x (List.mem_cons_of_mem e hx))
    simp only [List.map_cons, List.filterMap_cons, List.filter_cons]
    by_cases hb : jsTrim e.name = ""
    · simp [entKeep, he, hb, ih']
    · simp [entKeep, he, hb, ih']

/-- Helper: a bucket whose entities all have non-empty names is rendered
in the four index-aligned representations. -/
theorem aligned_of_names (l : List Entity) (h : ∀ e ∈ l, e.name ≠ "")
    (path : Option String) : alignedRepresentations l path := by
  have h1 := filterNonBlank_ent l h
  have h2 := filterEnt_nonBlank l h
  unfold alignedRepresentations validEntities
  refine ⟨?_, ?_, ?_, ?_⟩
  · show formatArray (l.map FItem.ent) FormatType.SHORT_VALUE none MAX_ARRAY_ITEMS = _
    simp only [formatArray, h1]
    rw [← List.map_take, List.map_map]
    rfl
  · show formatArray (l.map FItem.ent) FormatType.LINK none MAX_ARRAY_ITEMS = _
    simp only [formatArray, h1]
    rw [← List.map_take, List.map_map]
    rfl
  · show formatArray (l.map FItem.ent) FormatType.LINK_WITH_PATH path MAX_ARRAY_ITEMS = _
    simp only [formatArray, h1]
    rw [← List.map_take, List.map_map]
    rfl
  · show formatArray (l.map FItem.ent) FormatType.LINK_ID_WITH_PATH path MAX_ARRAY_ITEMS = _
    simp only [formatArray, h2]
    rfl

/-- Claim C3: every person lacking a name or role key is skipped; each
remaining person lands in exactly the bucket selected by its role, other
role values being discarded (the bucket equation characterises all four
buckets simultaneously); and each bucket's four output representations —
plain names, [[Name]] links, [[path/Name]] links and [[path/Id|Name]]
links — are index-aligned: all four equal the same filtered and truncated
entity list rendered element-wise. -/
theorem extractPeople_bucketing_and_alignment (persons : List KinopoiskPerson)
    (dPath aPath wPath pPath : Option String) :
    extractPeople persons
      = ⟨bucketOf "director" persons, bucketOf "actor" persons,
         bucketOf "writer" persons, bucketOf "producer" persons⟩
    ∧ alignedRepresentations (extractPeople persons).directors dPath
    ∧ alignedRepresentations (extractPeople persons).actors aPath
    ∧ alignedRepresentations (extractPeople persons).writers wPath
    ∧ alignedRepresentations (extractPeople persons).producers pPath := by
  have he := extractPeople_eq persons
  refine ⟨he, ?_, ?_, ?_, ?_⟩
  · rw [he]
    exact aligned_of_names _ (bucketOf_name_ne "director" persons) dPath
  · rw [he]
    exact aligned_of_names _ (bucketOf_name_ne "actor" persons) aPath
  · rw [he]
    exact aligned_of_names _ (bucketOf_name_ne "writer" persons) wPath
  · rw [he]
    exact aligned_of_names _ (bucketOf_name_ne "producer" persons) pPath

end Kinopoisk
